import Mathlib

set_option maxRecDepth 8000

namespace JobPlanner

/-! Shallow embedding of the jobplanner repository (src/app).

Strings are modelled as lists of characters (`Str`); machine strings from
Python are `List Char` here.  The planner / executor / synthesizer loop of
`app/nodes.py` and the graph wiring of `app/graph_runtime.py` are embedded as
a step function on a node-labelled state machine; the opaque external
capabilities (the chat model, the web search, the job-store tools as the
executor sees them) are an explicit environment of string functions, per the
declared string-in / string-out contract.  The flat-file job store of
`app/tools.py` is embedded separately as an association list from filename
stems to file contents. -/

abbrev Str := List Char

def dqChar : Char := Char.ofNat 34

def sqChar : Char := Char.ofNat 39

def nlChar : Char := Char.ofNat 10

/-- Python `str.lower()` (ASCII range, as exercised by this code base). -/
def lowerStr (s : Str) : Str := s.map Char.toLower

/-- Python regex class `\s` (whitespace). -/
def isSpaceChar (c : Char) : Bool :=
  c = Char.ofNat 32 || c = Char.ofNat 9 || c = Char.ofNat 10 ||
  c = Char.ofNat 13 || c = Char.ofNat 12 || c = Char.ofNat 11

/-- Python regex class `\w` (word characters; ASCII fragment). -/
def isWordChar (c : Char) : Bool := c.isAlphanum || c = Char.ofNat 95

/-- Helper for `splitWs`: accumulates the current word (reversed). -/
def splitWsAux : Str → Str → List Str
  | acc, [] => if acc = [] then [] else [acc.reverse]
  | acc, c :: rest =>
    if isSpaceChar c then
      if acc = [] then splitWsAux [] rest else acc.reverse :: splitWsAux [] rest
    else splitWsAux (c :: acc) rest

/-- Python `str.split()` with no argument: split on whitespace runs, no empties. -/
def splitWs (s : Str) : List Str := splitWsAux [] s

/-- Python `str.strip()` with no argument: trim whitespace at both ends. -/
def stripWs (s : Str) : Str :=
  ((s.dropWhile isSpaceChar).reverse.dropWhile isSpaceChar).reverse

/-- Python `str.strip(c)` for a single character. -/
def stripChar (c : Char) (s : Str) : Str :=
  ((s.dropWhile (· = c)).reverse.dropWhile (· = c)).reverse

/-- `re.sub(r'[^\w\s]', ' ', s)` in `load_job_by_title` (tools.py:140-141). -/
def subNonWordSpace (s : Str) : Str :=
  s.map (fun c => if isWordChar c || isSpaceChar c then c else Char.ofNat 32)

/-- Python `sep.join(xs)`. -/
def joinStr (sep : Str) (xs : List Str) : Str := List.intercalate sep xs

/-- Python `needle in hay` on strings: contiguous substring test. -/
def isSubstring (needle : Str) : Str → Bool
  | [] => needle.isPrefixOf []
  | c :: rest => needle.isPrefixOf (c :: rest) || isSubstring needle rest

/-- Wrap a string in single quotes, as the f-strings `'{x}'` in tools.py do. -/
def quoteSq (s : Str) : Str := sqChar :: s ++ [sqChar]

/-! ### The regex model

The executor extracts tool arguments with `re.search(r'name\("(.+?)"\)', step)`
(nodes.py:175, 194, 211, 233, 250) and, for the web tool only, a second
single-quoted pattern (nodes.py:177).  `re.search` tries each start position
left to right; at a start position the literal `name("` must match, then the
lazy `(.+?)` consumes the shortest non-empty run of non-newline characters
followed by the closing quote and `)`. -/

/-- Lazy `(.+?)` followed by `q)`: consume at least one non-newline character,
stopping at the earliest point where the closing quote and `)` follow. -/
def lazyClose (q : Char) : Str → Str → Option Str
  | _, [] => none
  | acc, c :: rest =>
    if c = nlChar then none
    else
      match rest with
      | q2 :: cp :: _ =>
        if q2 = q && cp = ')' then some ((c :: acc).reverse)
        else lazyClose q (c :: acc) rest
      | _ => lazyClose q (c :: acc) rest

/-- Try the pattern `openLit (.+?) q )` anchored at the start of `s`. -/
def extractAt (openLit : Str) (q : Char) (s : Str) : Option Str :=
  if openLit.isPrefixOf s then lazyClose q [] (s.drop openLit.length) else none

/-- `re.search` for the pattern `openLit (.+?) q )`: leftmost start wins. -/
def searchExtract (openLit : Str) (q : Char) : Str → Option Str
  | [] => extractAt openLit q []
  | c :: rest =>
    match extractAt openLit q (c :: rest) with
    | some r => some r
    | none => searchExtract openLit q rest

/-! ### Executor dispatch (nodes.py:140-310) -/

def webName : Str := "web_search_tool".data

def loadName : Str := "load_job_by_title".data

def stjName : Str := "search_jobs_by_title".data

def lajName : Str := "list_all_jobs".data

def gjfName : Str := "get_job_by_filename".data

def sjcName : Str := "search_jobs_by_criteria".data

def webOpenDq : Str := "web_search_tool(".data ++ [dqChar]

def webOpenSq : Str := "web_search_tool(".data ++ [sqChar]

def loadOpenDq : Str := "load_job_by_title(".data ++ [dqChar]

def stjOpenDq : Str := "search_jobs_by_title(".data ++ [dqChar]

def gjfOpenDq : Str := "get_job_by_filename(".data ++ [dqChar]

def sjcOpenDq : Str := "search_jobs_by_criteria(".data ++ [dqChar]

/-- nodes.py:175-177: double-quoted pattern first, then the single-quoted one. -/
def extractWebQuery (s : Str) : Option Str :=
  match searchExtract webOpenDq dqChar s with
  | some q => some q
  | none => searchExtract webOpenSq sqChar s

def webParseErr : Str := "Error: Could not parse web search query".data

def loadParseErr : Str := "Error: Could not parse job title".data

def stjParseErr : Str := "Error: Could not parse search term".data

def gjfParseErr : Str := "Error: Could not parse filename".data

def sjcParseErr : Str := "Error: Could not parse search criteria".data

/-- What one executor step decides to do with the front plan step. -/
inductive Action where
  | callWebSearch (q : Str)
  | callLoadJobByTitle (t : Str)
  | callSearchJobsByTitle (t : Str)
  | callListAllJobs
  | callGetJobByFilename (f : Str)
  | callSearchJobsByCriteria (c : Str)
  | freeForm (step : Str)
  | parseFail (msg : Str)
deriving DecidableEq

/-- The `if/elif` chain of `job_aware_executor_node` (nodes.py:173-279). -/
def dispatch (step : Str) : Action :=
  if webName.isPrefixOf step then
    match extractWebQuery step with
    | some q => .callWebSearch q
    | none => .parseFail webParseErr
  else if loadName.isPrefixOf step then
    match searchExtract loadOpenDq dqChar step with
    | some t => .callLoadJobByTitle t
    | none => .parseFail loadParseErr
  else if stjName.isPrefixOf step then
    match searchExtract stjOpenDq dqChar step with
    | some t => .callSearchJobsByTitle t
    | none => .parseFail stjParseErr
  else if lajName.isPrefixOf step then .callListAllJobs
  else if gjfName.isPrefixOf step then
    match searchExtract gjfOpenDq dqChar step with
    | some f => .callGetJobByFilename f
    | none => .parseFail gjfParseErr
  else if sjcName.isPrefixOf step then
    match searchExtract sjcOpenDq dqChar step with
    | some c => .callSearchJobsByCriteria c
    | none => .parseFail sjcParseErr
  else .freeForm step

def knownToolName (step : Str) : Bool :=
  webName.isPrefixOf step || loadName.isPrefixOf step || stjName.isPrefixOf step ||
  lajName.isPrefixOf step || gjfName.isPrefixOf step || sjcName.isPrefixOf step

/-- The free-form prompt built at nodes.py:271-278 (exact f-string text). -/
def jobPrompt (step : Str) : Str :=
  "\n            You are a recruitment and job analysis expert. Process this step:\n            \n            Step: ".data
    ++ step
    ++ "\n            \n            Provide expert analysis and recommendations. If this involves job analysis, \n            consider using the available job tools to get specific information.\n            ".data

/-- The opaque external capabilities the nodes call: the structured planner
model call, the five bound tools and the raw chat model (spec section 6). -/
structure Env where
  planner : Str → Except Str (List Str)
  webSearch : Str → Str
  loadJobByTitle : Str → Str
  searchJobsByTitle : Str → Str
  listAllJobs : Str
  getJobByFilename : Str → Str
  searchJobsByCriteria : Str → Str
  llm : Str → Str

def runAction (env : Env) : Action → Str
  | .callWebSearch q => env.webSearch q
  | .callLoadJobByTitle t => env.loadJobByTitle t
  | .callSearchJobsByTitle t => env.searchJobsByTitle t
  | .callListAllJobs => env.listAllJobs
  | .callGetJobByFilename f => env.getJobByFilename f
  | .callSearchJobsByCriteria c => env.searchJobsByCriteria c
  | .freeForm s => env.llm (jobPrompt s)
  | .parseFail m => m

/-- The result string of executing one plan step. -/
def stepResult (env : Env) (step : Str) : Str := runAction env (dispatch step)

/-- `PlannerState` (nodes.py:57-65).  The `messages` key is omitted: the wired
graph (graph_runtime.py) never routes through the tool node, no node returns a
`messages` update, and the planner turn that reads it is folded into
`Env.planner`. -/
structure PlannerState where
  user_input : Str
  plan : List Str
  intermediate_messages : List Str
  final_output : Option Str
deriving DecidableEq

/-- `job_aware_executor_node` (nodes.py:140-310).  An empty plan returns the
update `{"plan": []}` (nodes.py:159); otherwise the first step is executed,
its result appended, and the plan tail kept (nodes.py:294-297). -/
def job_aware_executor_node (env : Env) (st : PlannerState) : PlannerState :=
  match st.plan with
  | [] => ⟨st.user_input, [], st.intermediate_messages, st.final_output⟩
  | step :: rest =>
    ⟨st.user_input, rest, st.intermediate_messages ++ [stepResult env step],
      st.final_output⟩

/-- `planner_node` (nodes.py:67-138): one structured model call sets the plan;
a failure propagates (nodes.py:127-138 re-raises). -/
def planner_node (env : Env) (st : PlannerState) : Except Str PlannerState :=
  match env.planner st.user_input with
  | .ok steps => .ok ⟨st.user_input, steps, st.intermediate_messages, st.final_output⟩
  | .error e => .error e

/-- The synthesis prompt built at nodes.py:339-344 (exact f-string text). -/
def synthesisPrompt (ui : Str) (im : List Str) : Str :=
  "You are an expert synthesizer. Based on the user's input and the collected data, provide a comprehensive final answer.\n    \n    Request: ".data
    ++ ui
    ++ "\n    Collected Data:\n    ".data
    ++ joinStr [nlChar] im
    ++ "\n    ".data

/-- `synthesizer_node` (nodes.py:312-370). -/
def synthesizer_node (env : Env) (st : PlannerState) : PlannerState :=
  ⟨st.user_input, st.plan, st.intermediate_messages,
    some (env.llm (synthesisPrompt st.user_input st.intermediate_messages))⟩

inductive Route where
  | executer
  | synthesizer
deriving DecidableEq

/-- `router_function` (nodes.py:379-383): truthy plan continues executing. -/
def router_function (st : PlannerState) : Route :=
  if st.plan ≠ [] then .executer else .synthesizer

inductive Node where
  | planner
  | executer
  | synthesizer
  | done
deriving DecidableEq

def nodeOfRoute : Route → Node
  | .executer => .executer
  | .synthesizer => .synthesizer

/-- One transition of the compiled graph (graph_runtime.py:8-17): entry point
`planner`; unconditional edge `planner -> executer`; conditional edges from
`executer` through `router_function`; `synthesizer -> END`. -/
def graphStep (env : Env) : Node × PlannerState → Except Str (Node × PlannerState)
  | (.planner, st) =>
    match planner_node env st with
    | .ok st2 => .ok (.executer, st2)
    | .error e => .error e
  | (.executer, st) =>
    let st2 := job_aware_executor_node env st
    .ok (nodeOfRoute (router_function st2), st2)
  | (.synthesizer, st) => .ok (.done, synthesizer_node env st)
  | (.done, st) => .ok (.done, st)

/-- Iterate the graph a given number of transitions; an exception aborts. -/
def runGraph (env : Env) : Nat → Node × PlannerState → Except Str (Node × PlannerState)
  | 0, ns => .ok ns
  | n + 1, ns =>
    match graphStep env ns with
    | .ok ns2 => runGraph env n ns2
    | .error e => .error e

/-! ### The flat-file job store (app/tools.py)

A job record is the `JobDescription` schema (tools.py:28-39): the dictionaries
written by `save_job_description` come from `model_dump()`, so all ten keys
are always present; optional fields hold JSON `null` when absent, modelled as
`Option`.  The `data/jobs` directory is an association list from filename stem
to file content; `Entry.bad` stands for a file that `json.load` rejects or
that cannot be read (`json.JSONDecodeError` / `IOError`). -/

structure Job where
  title : Str
  company : Str
  description : Str
  requirements : List Str
  location : Option Str
  salary : Option Str
  type : Option Str
  posted_date : Option Str
  benefits : List Str
  responsibilities : List Str
deriving DecidableEq

inductive Entry where
  | ok (j : Job)
  | bad
deriving DecidableEq

abbrev Store := List (Str × Entry)

def lookupStore : Store → Str → Option Entry
  | [], _ => none
  | (k, v) :: rest, f => if k = f then some v else lookupStore rest f

/-- Python `f"{value}"` on a present-but-possibly-`None` dictionary value:
`None` renders as the literal text `None`. -/
def renderOpt : Option Str → Str
  | some s => s
  | none => "None".data

/-- `re.sub(r'[-\s]+', '_', s)`: replace each run of dashes/whitespace by a
single underscore.  The flag records whether the previous character was
inside such a run. -/
def collapseDashSpace : Bool → Str → Str
  | _, [] => []
  | inRun, c :: rest =>
    if c = Char.ofNat 45 || isSpaceChar c then
      if inRun then collapseDashSpace true rest
      else Char.ofNat 95 :: collapseDashSpace true rest
    else c :: collapseDashSpace false rest

/-- `sanitize_filename` (tools.py:42-50): drop characters outside `[\w\s-]`,
collapse dash/space runs to `_`, strip `_` at the ends, cap at 100. -/
def sanitize_filename (s : Str) : Str :=
  let f1 := s.filter (fun c => isWordChar c || isSpaceChar c || c = Char.ofNat 45)
  let f2 := collapseDashSpace false f1
  (stripChar (Char.ofNat 95) f2).take 100

/-- Python `filename.replace('.json', '')`: remove every (non-overlapping,
leftmost-first) occurrence of `.json` (tools.py:100). -/
def stripJsonExt : Str → Str
  | [] => []
  | '.' :: 'j' :: 's' :: 'o' :: 'n' :: rest => stripJsonExt rest
  | c :: rest => c :: stripJsonExt rest

def digitChar (d : Nat) : Char := Char.ofNat (48 + d)

/-- Decimal rendering of a counter, as Python interpolates it into
`f"{filename}_{counter}.json"`. -/
def natToChars (n : Nat) : Str := (Nat.digits 10 n).reverse.map digitChar

/-- The stem `f"{base}_{n}"` tried by the duplicate-avoidance loop. -/
def candName (base : Str) (n : Nat) : Str := base ++ Char.ofNat 95 :: natToChars n

/-- The `while filepath.exists()` loop of tools.py:104-109, starting at
counter `n`; the fuel is an upper bound on the number of probes needed (the
fuel-exhausted fallback is proved unreachable for the fuel used below). -/
def freshFrom (s : Store) (base : Str) : Nat → Nat → Str
  | 0, n => candName base n
  | fuel + 1, n =>
    if (lookupStore s (candName base n)).isSome then freshFrom s base fuel (n + 1)
    else candName base n

def freshStem (s : Store) (base : Str) : Str :=
  if (lookupStore s base).isSome then freshFrom s base (s.length + 1) 1 else base

/-- The generated base filename (tools.py:94-100, `filename is None` path):
`f"{sanitize_filename(title.lower())}_{sanitize_filename(company.lower())}"`,
then `.replace('.json', '')`. -/
def baseFilename (job : Job) : Str :=
  stripJsonExt
    (sanitize_filename (lowerStr job.title) ++
      Char.ofNat 95 :: sanitize_filename (lowerStr job.company))

/-- `save_job_description` (tools.py:83-115), called without an explicit
filename as the `/save-job` and `/plan-with-job` routes do: pick the first
free stem, write the record, return the stem. -/
def save_job_description (s : Store) (job : Job) : Store × Str :=
  let stem := freshStem s (baseFilename job)
  ((stem, Entry.ok job) :: s, stem)

/-- `format_job_data` (tools.py:155-168).  All ten schema keys are present in
the stored dictionaries, so `get('salary', get('salary_range', ...))` yields
the `salary` value (rendering `None` when null), and only the keys the schema
lacks (`experience_level`) fall back to `Not specified`. -/
def format_job_data (j : Job) : Str :=
  "Job: ".data ++ j.title ++
  "\nCompany: ".data ++ j.company ++
  "\nLocation: ".data ++ renderOpt j.location ++
  "\nDescription: ".data ++ j.description ++
  "\nRequirements: ".data ++
    (if j.requirements = [] then "Not specified".data
     else joinStr ", ".data j.requirements) ++
  "\nResponsibilities: ".data ++
    (if j.responsibilities = [] then "Not specified".data
     else joinStr ", ".data j.responsibilities) ++
  "\nSalary: ".data ++ renderOpt j.salary ++
  "\nEmployment Type: ".data ++ renderOpt j.type ++
  "\nExperience Level: Not specified".data

/-- The per-file match test of `load_job_by_title` (tools.py:125-147):
check 1 on the normalized filename, check 2 on the cleaned title fields. -/
def titleMatches (t norm stem : Str) (j : Job) : Bool :=
  let nf := lowerStr stem
  let fileClean := subNonWordSpace (lowerStr j.title)
  let searchClean := subNonWordSpace (lowerStr t)
  (isSubstring norm nf || norm.isPrefixOf nf) ||
  (isSubstring (stripWs searchClean) fileClean ||
   isSubstring (stripWs fileClean) searchClean ||
   (splitWs searchClean).any (fun w => decide (w.length > 3) && isSubstring w fileClean))

/-- The scan loop of `load_job_by_title` (tools.py:125-150): unreadable or
malformed files are skipped by the `except (json.JSONDecodeError, IOError):
continue` handler; the first matching record is formatted. -/
def loadScan (t norm : Str) : Store → Str
  | [] => "Job with title ".data ++ quoteSq t ++ " not found in directory".data
  | (_, Entry.bad) :: rest => loadScan t norm rest
  | (stem, Entry.ok j) :: rest =>
    if titleMatches t norm stem j then format_job_data j else loadScan t norm rest

/-- `load_job_by_title` (tools.py:117-152): total, never raises. -/
def load_job_by_title (s : Store) (t : Str) : Str :=
  loadScan t (sanitize_filename (lowerStr t)) s

/-- The listing line `f"- {title} at {company} (File: {stem})"`. -/
def entryLine (j : Job) (stem : Str) : Str :=
  "- ".data ++ j.title ++ " at ".data ++ j.company ++ " (File: ".data ++ stem ++ ")".data

/-- The collection loop of `search_jobs_by_title` (tools.py:173-182): there is
no exception handler here, so a file `json.load` rejects raises out. -/
def collectTitle (t : Str) : Store → Except Unit (List Str)
  | [] => .ok []
  | (_, Entry.bad) :: _ => .error ()
  | (stem, Entry.ok j) :: rest =>
    match collectTitle t rest with
    | .error e => .error e
    | .ok ms =>
      .ok (if isSubstring (lowerStr t) (lowerStr j.title) then entryLine j stem :: ms else ms)

/-- `search_jobs_by_title` (tools.py:170-184). -/
def search_jobs_by_title (s : Store) (t : Str) : Except Unit Str :=
  match collectTitle t s with
  | .error e => .error e
  | .ok ms =>
    .ok (if ms = [] then "No jobs found matching ".data ++ quoteSq t
         else "Jobs matching ".data ++ quoteSq t ++ ":".data ++ nlChar :: joinStr [nlChar] ms)

/-- The collection loop of `list_all_jobs` (tools.py:193-197): no handler. -/
def collectAll : Store → Except Unit (List Str)
  | [] => .ok []
  | (_, Entry.bad) :: _ => .error ()
  | (stem, Entry.ok j) :: rest =>
    match collectAll rest with
    | .error e => .error e
    | .ok ms => .ok (entryLine j stem :: ms)

/-- `list_all_jobs` (tools.py:186-199): the empty directory is answered before
any file is opened. -/
def list_all_jobs (s : Store) : Except Unit Str :=
  if s = [] then .ok "No jobs found in directory".data
  else
    match collectAll s with
    | .error e => .error e
    | .ok ms => .ok ("Available jobs:".data ++ nlChar :: joinStr [nlChar] ms)

/-- `get_job_by_filename` (tools.py:201-218): no handler; the summary reads
the keys `salary_range`, `employment_type` and `experience_level`, none of
which the `JobDescription` schema (and hence the saved dictionaries) contains,
so those three lines always fall back to `Not specified`. -/
def get_job_by_filename (s : Store) (f : Str) : Except Unit Str :=
  match lookupStore s f with
  | some (Entry.ok j) =>
    .ok ("Job: ".data ++ j.title ++
      "\nCompany: ".data ++ j.company ++
      "\nLocation: ".data ++ renderOpt j.location ++
      "\nDescription: ".data ++ j.description ++
      "\nRequirements: ".data ++ joinStr ", ".data j.requirements ++
      "\nResponsibilities: ".data ++ joinStr ", ".data j.responsibilities ++
      "\nSalary: Not specified\nEmployment Type: Not specified\nExperience Level: Not specified".data)
  | some Entry.bad => .error ()
  | none => .ok ("Job file ".data ++ quoteSq (f ++ ".json".data) ++ " not found".data)

/-- The searchable text of `search_jobs_by_criteria` (tools.py:229): the
f-string `f"{title} {description} {location} {reqs} {resps}"` lower-cased,
where `location` comes from `get('location', '')` (so null renders `None`). -/
def searchableText (j : Job) : Str :=
  lowerStr (j.title ++ Char.ofNat 32 :: j.description ++
    Char.ofNat 32 :: renderOpt j.location ++
    Char.ofNat 32 :: joinStr [Char.ofNat 32] j.requirements ++
    Char.ofNat 32 :: joinStr [Char.ofNat 32] j.responsibilities)

/-- `any(keyword.lower() in searchable_text for keyword in criteria.split())`. -/
def matchesCriteria (c : Str) (j : Job) : Bool :=
  (splitWs c).any (fun k => isSubstring (lowerStr k) (searchableText j))

/-- The collection loop of `search_jobs_by_criteria` (tools.py:223-232). -/
def collectCriteria (c : Str) : Store → Except Unit (List Str)
  | [] => .ok []
  | (_, Entry.bad) :: _ => .error ()
  | (stem, Entry.ok j) :: rest =>
    match collectCriteria c rest with
    | .error e => .error e
    | .ok ms => .ok (if matchesCriteria c j then entryLine j stem :: ms else ms)

/-- `search_jobs_by_criteria` (tools.py:220-234). -/
def search_jobs_by_criteria (s : Store) (c : Str) : Except Unit Str :=
  match collectCriteria c s with
  | .error e => .error e
  | .ok ms =>
    .ok (if ms = [] then "No jobs found matching ".data ++ quoteSq c
         else "Jobs matching ".data ++ quoteSq c ++ ":".data ++ nlChar :: joinStr [nlChar] ms)

def entryOk : Entry → Bool
  | Entry.ok _ => true
  | Entry.bad => false

/-- Every file in the store parses (no malformed or unreadable files). -/
def cleanStore (s : Store) : Bool := s.all (fun e => entryOk e.2)

def isOkE : Except Unit Str → Bool
  | .ok _ => true
  | .error _ => false

/-! ### Concrete environments for witnesses

Each capability tags its answer, so the result of a step shows which
capability was invoked and with which argument. -/

def env1 : Env :=
  ⟨fun _ => .ok [], fun q => 'W' :: q, fun t => 'L' :: t, fun t => 'S' :: t,
    "ALLJOBS".data, fun f => 'G' :: f, fun c => 'C' :: c, fun p => 'M' :: p⟩

def env2 : Env :=
  ⟨fun _ => .ok ["list_all_jobs()".data, "review results".data],
    fun q => 'W' :: q, fun t => 'L' :: t, fun t => 'S' :: t,
    "ALLJOBS".data, fun f => 'G' :: f, fun c => 'C' :: c, fun p => 'M' :: p⟩

def env3 : Env :=
  ⟨fun _ => .ok ["a".data, "b".data],
    fun q => 'W' :: q, fun t => 'L' :: t, fun t => 'S' :: t,
    "ALLJOBS".data, fun f => 'G' :: f, fun c => 'C' :: c, fun p => 'M' :: p⟩

def env4 : Env :=
  ⟨fun _ => .error "schema validation failed".data,
    fun q => 'W' :: q, fun t => 'L' :: t, fun t => 'S' :: t,
    "ALLJOBS".data, fun f => 'G' :: f, fun c => 'C' :: c, fun p => 'M' :: p⟩

/-- A concrete job record with populated salary and employment type. -/
def job0 : Job :=
  ⟨"Data Scientist".data, "Acme".data, "Builds models".data, ["Python".data],
    some "NYC".data, some "100k".data, some "Full-time".data, none, [],
    ["Modeling".data]⟩

/-! ### Helper lemmas -/

lemma isPrefixOf_of_both {a b s : Str} (ha : a.isPrefixOf s = true)
    (hb : b.isPrefixOf s = true) (hab : a.length ≤ b.length) :
    a.isPrefixOf b = true := by
  induction a generalizing b s with
  | nil => simp
  | cons x a2 ih =>
    cases s with
    | nil => simp at ha
    | cons z s2 =>
      cases b with
      | nil => simp at hab
      | cons y b2 =>
        rw [List.isPrefixOf_cons₂] at ha hb ⊢
        simp only [Bool.and_eq_true, beq_iff_eq] at ha hb ⊢
        obtain ⟨hxz, ha2⟩ := ha
        obtain ⟨hyz, hb2⟩ := hb
        refine ⟨hxz.trans hyz.symm, ih ha2 hb2 ?_⟩
        simpa using Nat.le_of_succ_le_succ hab

/-- If `b` begins the step but neither of `a`, `b` begins the other, then `a`
does not begin the step: the branch guards of the dispatch chain exclude each
other. -/
lemma guard_false {a b s : Str} (hb : b.isPrefixOf s = true)
    (h1 : a.isPrefixOf b = false) (h2 : b.isPrefixOf a = false) :
    a.isPrefixOf s = false := by
  cases h : a.isPrefixOf s with
  | false => rfl
  | true =>
    exfalso
    rcases Nat.le_total a.length b.length with hle | hle
    · rw [isPrefixOf_of_both h hb hle] at h1
      exact Bool.noConfusion h1
    · rw [isPrefixOf_of_both hb h hle] at h2
      exact Bool.noConfusion h2

/-! ### Claims about the executor dispatch -/

/-- C1: for every plan step whose prefix matches one of the six tool names and
whose argument is correctly double-quoted, one executor invocation calls
exactly that tool with exactly the extracted argument, appends the result as
one new entry, and removes exactly the first plan element; a step matching no
prefix goes to the model as a free-form reasoning step whose raw response is
the step result. -/
theorem C1_executor_tool_dispatch (env : Env) (ui : Str) (im : List Str)
    (fo : Option Str) (step : Str) (rest : List Str) :
    job_aware_executor_node env ⟨ui, step :: rest, im, fo⟩ =
      ⟨ui, rest, im ++ [stepResult env step], fo⟩ ∧
    (∀ q, webName.isPrefixOf step = true →
      searchExtract webOpenDq dqChar step = some q →
      stepResult env step = env.webSearch q) ∧
    (∀ t, loadName.isPrefixOf step = true →
      searchExtract loadOpenDq dqChar step = some t →
      stepResult env step = env.loadJobByTitle t) ∧
    (∀ t, stjName.isPrefixOf step = true →
      searchExtract stjOpenDq dqChar step = some t →
      stepResult env step = env.searchJobsByTitle t) ∧
    (lajName.isPrefixOf step = true → stepResult env step = env.listAllJobs) ∧
    (∀ f, gjfName.isPrefixOf step = true →
      searchExtract gjfOpenDq dqChar step = some f →
      stepResult env step = env.getJobByFilename f) ∧
    (∀ c, sjcName.isPrefixOf step = true →
      searchExtract sjcOpenDq dqChar step = some c →
      stepResult env step = env.searchJobsByCriteria c) ∧
    (knownToolName step = false → stepResult env step = env.llm (jobPrompt step)) := by
  refine ⟨rfl, ?_, ?_, ?_, ?_, ?_, ?_, ?_⟩
  · intro q hp he
    have hweb : extractWebQuery step = some q := by simp [extractWebQuery, he]
    simp [stepResult, dispatch, hp, hweb, runAction]
  · intro t hp he
    have hw : webName.isPrefixOf step = false := guard_false hp (by decide) (by decide)
    simp [stepResult, dispatch, hw, hp, he, runAction]
  · intro t hp he
    have hw : webName.isPrefixOf step = false := guard_false hp (by decide) (by decide)
    have hl : loadName.isPrefixOf step = false := guard_false hp (by decide) (by decide)
    simp [stepResult, dispatch, hw, hl, hp, he, runAction]
  · intro hp
    have hw : webName.isPrefixOf step = false := guard_false hp (by decide) (by decide)
    have hl : loadName.isPrefixOf step = false := guard_false hp (by decide) (by decide)
    have hs : stjName.isPrefixOf step = false := guard_false hp (by decide) (by decide)
    simp [stepResult, dispatch, hw, hl, hs, hp, runAction]
  · intro f hp he
    have hw : webName.isPrefixOf step = false := guard_false hp (by decide) (by decide)
    have hl : loadName.isPrefixOf step = false := guard_false hp (by decide) (by decide)
    have hs : stjName.isPrefixOf step = false := guard_false hp (by decide) (by decide)
    have ha : lajName.isPrefixOf step = false := guard_false hp (by decide) (by decide)
    simp [stepResult, dispatch, hw, hl, hs, ha, hp, he, runAction]
  · intro c hp he
    have hw : webName.isPrefixOf step = false := guard_false hp (by decide) (by decide)
    have hl : loadName.isPrefixOf step = false := guard_false hp (by decide) (by decide)
    have hs : stjName.isPrefixOf step = false := guard_false hp (by decide) (by decide)
    have ha : lajName.isPrefixOf step = false := guard_false hp (by decide) (by decide)
    have hg : gjfName.isPrefixOf step = false := guard_false hp (by decide) (by decide)
    simp [stepResult, dispatch, hw, hl, hs, ha, hg, hp, he, runAction]
  · intro h
    simp only [knownToolName, Bool.or_eq_false_iff] at h
    obtain ⟨⟨⟨⟨⟨hw, hl⟩, hs⟩, ha⟩, hg⟩, hc⟩ := h
    simp [stepResult, dispatch, hw, hl, hs, ha, hg, hc, runAction]

theorem C1_executor_tool_dispatch_witness :
    job_aware_executor_node env1
        ⟨"u".data, ["list_all_jobs()".data, "next".data], [], none⟩ =
      ⟨"u".data, ["next".data],
        [stepResult env1 "list_all_jobs()".data], none⟩ ∧
    stepResult env1
        ("web_search_tool(".data ++ dqChar :: "x".data ++ dqChar :: ")".data) =
      'W' :: "x".data ∧
    stepResult env1
        ("load_job_by_title(".data ++ dqChar :: "y".data ++ dqChar :: ")".data) =
      'L' :: "y".data ∧
    stepResult env1
        ("search_jobs_by_title(".data ++ dqChar :: "z".data ++ dqChar :: ")".data) =
      'S' :: "z".data ∧
    stepResult env1 "list_all_jobs()".data = "ALLJOBS".data ∧
    stepResult env1
        ("get_job_by_filename(".data ++ dqChar :: "f".data ++ dqChar :: ")".data) =
      'G' :: "f".data ∧
    stepResult env1
        ("search_jobs_by_criteria(".data ++ dqChar :: "c".data ++ dqChar :: ")".data) =
      'C' :: "c".data ∧
    stepResult env1 "summarize findings".data =
      'M' :: jobPrompt "summarize findings".data := by
  refine ⟨?_, ?_, ?_, ?_, ?_, ?_, ?_, ?_⟩
  · exact (C1_executor_tool_dispatch env1 "u".data [] none
      "list_all_jobs()".data ["next".data]).1
  · exact (C1_executor_tool_dispatch env1 [] [] none _ []).2.1 _ (by decide) (by decide)
  · exact (C1_executor_tool_dispatch env1 [] [] none _ []).2.2.1 _ (by decide) (by decide)
  · exact (C1_executor_tool_dispatch env1 [] [] none _ []).2.2.2.1 _ (by decide) (by decide)
  · exact (C1_executor_tool_dispatch env1 [] [] none _ []).2.2.2.2.1 (by decide)
  · exact (C1_executor_tool_dispatch env1 [] [] none _ []).2.2.2.2.2.1 _ (by decide) (by decide)
  · exact (C1_executor_tool_dispatch env1 [] [] none _ []).2.2.2.2.2.2.1 _ (by decide) (by decide)
  · exact (C1_executor_tool_dispatch env1 [] [] none _ []).2.2.2.2.2.2.2 (by decide)

/-- C4: a `web_search_tool` step from which no quoted argument can be
extracted yields exactly the literal error string as its result, invokes no
tool, and the run continues with the next step; extraction accepts both
double- and single-quoted arguments. -/
theorem C4_web_parse_error (env : Env) (ui : Str) (im : List Str)
    (fo : Option Str) (rest : List Str) (step : Str)
    (hpre : webName.isPrefixOf step = true) :
    (extractWebQuery step = none →
      dispatch step = .parseFail webParseErr ∧
      job_aware_executor_node env ⟨ui, step :: rest, im, fo⟩ =
        ⟨ui, rest, im ++ [webParseErr], fo⟩ ∧
      (rest ≠ [] →
        graphStep env (.executer, ⟨ui, step :: rest, im, fo⟩) =
          .ok (.executer, ⟨ui, rest, im ++ [webParseErr], fo⟩))) ∧
    (∀ q, searchExtract webOpenDq dqChar step = some q →
      extractWebQuery step = some q) ∧
    (∀ q, searchExtract webOpenDq dqChar step = none →
      searchExtract webOpenSq sqChar step = some q →
      extractWebQuery step = some q) := by
  refine ⟨?_, ?_, ?_⟩
  · intro hn
    have hd : dispatch step = .parseFail webParseErr := by simp [dispatch, hpre, hn]
    refine ⟨hd, ?_, ?_⟩
    · simp [job_aware_executor_node, stepResult, hd, runAction]
    · intro hr
      simp [graphStep, job_aware_executor_node, stepResult, hd, runAction,
        router_function, hr, nodeOfRoute]
  · intro q h
    simp [extractWebQuery, h]
  · intro q h1 h2
    simp [extractWebQuery, h1, h2]

theorem C4_web_parse_error_witness :
    job_aware_executor_node env1
        ⟨"u".data, ["web_search_tool(query)".data], [], none⟩ =
      ⟨"u".data, [], [webParseErr], none⟩ ∧
    extractWebQuery
        ("web_search_tool(".data ++ sqChar :: "x".data ++ sqChar :: ")".data) =
      some "x".data := by
  constructor
  · exact ((C4_web_parse_error env1 "u".data [] none [] _ (by decide)).1 (by decide)).2.1
  · exact (C4_web_parse_error env1 "u".data [] none [] _ (by decide)).2.2
      "x".data (by decide) (by decide)

/-- C10: the tools other than `web_search_tool` parse only a double-quoted
argument; when double-quote extraction fails (in particular for a
single-quoted argument) no tool is invoked and the branch's literal
parse-error string is the step result; only `web_search_tool` additionally
accepts single quotes. -/
theorem C10_single_quotes_rejected (env : Env) (step : Str) :
    (loadName.isPrefixOf step = true →
      searchExtract loadOpenDq dqChar step = none →
      dispatch step = .parseFail loadParseErr ∧ stepResult env step = loadParseErr) ∧
    (stjName.isPrefixOf step = true →
      searchExtract stjOpenDq dqChar step = none →
      dispatch step = .parseFail stjParseErr ∧ stepResult env step = stjParseErr) ∧
    (gjfName.isPrefixOf step = true →
      searchExtract gjfOpenDq dqChar step = none →
      dispatch step = .parseFail gjfParseErr ∧ stepResult env step = gjfParseErr) ∧
    (sjcName.isPrefixOf step = true →
      searchExtract sjcOpenDq dqChar step = none →
      dispatch step = .parseFail sjcParseErr ∧ stepResult env step = sjcParseErr) ∧
    (webName.isPrefixOf step = true → ∀ q,
      searchExtract webOpenDq dqChar step = none →
      searchExtract webOpenSq sqChar step = some q →
      stepResult env step = env.webSearch q) := by
  refine ⟨?_, ?_, ?_, ?_, ?_⟩
  · intro hp he
    have hw : webName.isPrefixOf step = false := guard_false hp (by decide) (by decide)
    constructor <;> simp [stepResult, dispatch, hw, hp, he, runAction]
  · intro hp he
    have hw : webName.isPrefixOf step = false := guard_false hp (by decide) (by decide)
    have hl : loadName.isPrefixOf step = false := guard_false hp (by decide) (by decide)
    constructor <;> simp [stepResult, dispatch, hw, hl, hp, he, runAction]
  · intro hp he
    have hw : webName.isPrefixOf step = false := guard_false hp (by decide) (by decide)
    have hl : loadName.isPrefixOf step = false := guard_false hp (by decide) (by decide)
    have hs : stjName.isPrefixOf step = false := guard_false hp (by decide) (by decide)
    have ha : lajName.isPrefixOf step = false := guard_false hp (by decide) (by decide)
    constructor <;> simp [stepResult, dispatch, hw, hl, hs, ha, hp, he, runAction]
  · intro hp he
    have hw : webName.isPrefixOf step = false := guard_false hp (by decide) (by decide)
    have hl : loadName.isPrefixOf step = false := guard_false hp (by decide) (by decide)
    have hs : stjName.isPrefixOf step = false := guard_false hp (by decide) (by decide)
    have ha : lajName.isPrefixOf step = false := guard_false hp (by decide) (by decide)
    have hg : gjfName.isPrefixOf step = false := guard_false hp (by decide) (by decide)
    constructor <;> simp [stepResult, dispatch, hw, hl, hs, ha, hg, hp, he, runAction]
  · intro hp q h1 h2
    have hweb : extractWebQuery step = some q := by simp [extractWebQuery, h1, h2]
    simp [stepResult, dispatch, hp, hweb, runAction]

theorem C10_single_quotes_rejected_witness :
    stepResult env1
        ("load_job_by_title(".data ++ sqChar :: "x".data ++ sqChar :: ")".data) =
      loadParseErr ∧
    stepResult env1
        ("search_jobs_by_title(".data ++ sqChar :: "x".data ++ sqChar :: ")".data) =
      stjParseErr ∧
    stepResult env1
        ("get_job_by_filename(".data ++ sqChar :: "x".data ++ sqChar :: ")".data) =
      gjfParseErr ∧
    stepResult env1
        ("search_jobs_by_criteria(".data ++ sqChar :: "x".data ++ sqChar :: ")".data) =
      sjcParseErr ∧
    stepResult env1
        ("web_search_tool(".data ++ sqChar :: "x".data ++ sqChar :: ")".data) =
      'W' :: "x".data := by
  refine ⟨?_, ?_, ?_, ?_, ?_⟩
  · exact ((C10_single_quotes_rejected env1 _).1 (by decide) (by decide)).2
  · exact ((C10_single_quotes_rejected env1 _).2.1 (by decide) (by decide)).2
  · exact ((C10_single_quotes_rejected env1 _).2.2.1 (by decide) (by decide)).2
  · exact ((C10_single_quotes_rejected env1 _).2.2.2.1 (by decide) (by decide)).2
  · exact (C10_single_quotes_rejected env1 _).2.2.2.2 (by decide) _ (by decide) (by decide)

/-! ### Lemmas about the graph run -/

lemma runGraph_add (env : Env) (m n : Nat) (ns : Node × PlannerState) :
    runGraph env (m + n) ns =
      match runGraph env m ns with
      | .ok ns2 => runGraph env n ns2
      | .error e => .error e := by
  induction m generalizing ns with
  | zero => simp [runGraph]
  | succ m ih =>
    rw [Nat.succ_add]
    cases h : graphStep env ns with
    | ok ns2 =>
      simp only [runGraph, h]
      exact ih ns2
    | error e => simp only [runGraph, h]

/-- While at least `j + 1` plan steps remain, `j` transitions from the
executor node stay at the executor node, consuming the first `j` steps and
appending their results in order. -/
lemma exec_iter (env : Env) (ui : Str) (fo : Option Str) :
    ∀ (j : Nat) (l im : List Str), j < l.length →
      runGraph env j (.executer, ⟨ui, l, im, fo⟩) =
        .ok (.executer, ⟨ui, l.drop j, im ++ (l.take j).map (stepResult env), fo⟩) := by
  intro j
  induction j with
  | zero =>
    intro l im _
    simp [runGraph]
  | succ j ih =>
    intro l im hj
    cases l with
    | nil => simp at hj
    | cons a l2 =>
      have hj2 : j < l2.length := by simpa using hj
      have hl2 : l2 ≠ [] := by
        intro he
        rw [he] at hj2
        simp at hj2
      have hstep : graphStep env (.executer, ⟨ui, a :: l2, im, fo⟩) =
          .ok (.executer, ⟨ui, l2, im ++ [stepResult env a], fo⟩) := by
        simp [graphStep, job_aware_executor_node, router_function, hl2, nodeOfRoute]
      simp only [runGraph, hstep]
      rw [ih l2 (im ++ [stepResult env a]) hj2]
      simp

/-- Draining a non-empty plan of length `N` takes exactly `N` transitions from
the executor node and then hands over to the synthesizer with all `N` step
results appended in order. -/
lemma exec_finish (env : Env) (ui : Str) (fo : Option Str) :
    ∀ (l : List Str) (im : List Str), l ≠ [] →
      runGraph env l.length (.executer, ⟨ui, l, im, fo⟩) =
        .ok (.synthesizer, ⟨ui, [], im ++ l.map (stepResult env), fo⟩) := by
  intro l
  induction l with
  | nil => intro im h; exact absurd rfl h
  | cons a l2 ih =>
    intro im _
    by_cases hl2 : l2 = []
    · subst hl2
      simp [runGraph, graphStep, job_aware_executor_node, router_function, nodeOfRoute]
    · have hstep : graphStep env (.executer, ⟨ui, a :: l2, im, fo⟩) =
          .ok (.executer, ⟨ui, l2, im ++ [stepResult env a], fo⟩) := by
        simp [graphStep, job_aware_executor_node, router_function, hl2, nodeOfRoute]
      show runGraph env (l2.length + 1) _ = _
      simp only [runGraph, hstep]
      rw [ih (im ++ [stepResult env a]) hl2]
      simp

/-! ### Claims about the router and the run -/

/-- C2: the router continues executing iff the plan is non-empty and
synthesizes otherwise, for every state; it is consulted only on the state
after an executor step, and the planner-to-executor transition is
unconditional, even for an empty plan. -/
theorem C2_router_policy (env : Env) :
    (∀ st : PlannerState, router_function st = Route.executer ↔ st.plan ≠ []) ∧
    (∀ st : PlannerState, router_function st = Route.synthesizer ↔ st.plan = []) ∧
    (∀ st steps, env.planner st.user_input = .ok steps →
      graphStep env (.planner, st) =
        .ok (.executer,
          ⟨st.user_input, steps, st.intermediate_messages, st.final_output⟩)) ∧
    (∀ st, graphStep env (.executer, st) =
      .ok (nodeOfRoute (router_function (job_aware_executor_node env st)),
        job_aware_executor_node env st)) := by
  refine ⟨?_, ?_, ?_, ?_⟩
  · intro st
    by_cases h : st.plan = [] <;> simp [router_function, h]
  · intro st
    by_cases h : st.plan = [] <;> simp [router_function, h]
  · intro st steps h
    simp [graphStep, planner_node, h]
  · intro st
    rfl

theorem C2_router_policy_witness :
    router_function ⟨"u".data, ["s".data], [], none⟩ = Route.executer ∧
    router_function ⟨"u".data, [], [], none⟩ = Route.synthesizer ∧
    graphStep env1 (.planner, ⟨"u".data, [], [], none⟩) =
      .ok (.executer, ⟨"u".data, [], [], none⟩) := by
  refine ⟨?_, ?_, ?_⟩
  · exact ((C2_router_policy env1).1 _).mpr (by decide)
  · exact ((C2_router_policy env1).2.1 _).mpr rfl
  · exact (C2_router_policy env1).2.2.1 _ [] rfl

/-- C3 (counterexample): in a run whose plan has zero steps the executor node
is still entered once (as a no-op) before the synthesizer is reached, so the
Executor does not run exactly `N = 0` times before the Synthesizer. -/
theorem C3_zero_steps_cex :
    runGraph env1 1 (.planner, ⟨"q".data, [], [], none⟩) =
      .ok (.executer, ⟨"q".data, [], [], none⟩) ∧
    runGraph env1 2 (.planner, ⟨"q".data, [], [], none⟩) =
      .ok (.synthesizer, ⟨"q".data, [], [], none⟩) := by
  exact ⟨rfl, rfl⟩

/-- C3 (amended): for a plan of `N >= 1` steps the executor node is entered at
transitions `1..N`, consuming one step per entry with
`len(intermediate_messages) =` steps already executed in original order
throughout, and the synthesizer is first entered at transition `N + 1` with
exactly `N` results in step order; for `N = 0` the executor node is entered
once as a no-op before the synthesizer. -/
theorem C3_run_counts (env : Env) (ui : Str) (steps : List Str)
    (h : env.planner ui = .ok steps) :
    runGraph env 1 (.planner, ⟨ui, [], [], none⟩) =
      .ok (.executer, ⟨ui, steps, [], none⟩) ∧
    (∀ j, j < steps.length →
      runGraph env (1 + j) (.planner, ⟨ui, [], [], none⟩) =
        .ok (.executer,
          ⟨ui, steps.drop j, (steps.take j).map (stepResult env), none⟩)) ∧
    (steps ≠ [] →
      runGraph env (1 + steps.length) (.planner, ⟨ui, [], [], none⟩) =
        .ok (.synthesizer, ⟨ui, [], steps.map (stepResult env), none⟩)) ∧
    (steps = [] →
      runGraph env 2 (.planner, ⟨ui, [], [], none⟩) =
        .ok (.synthesizer, ⟨ui, [], [], none⟩)) := by
  have h1 : runGraph env 1 (.planner, ⟨ui, [], [], none⟩) =
      .ok (.executer, ⟨ui, steps, [], none⟩) := by
    simp [runGraph, graphStep, planner_node, h]
  refine ⟨h1, ?_, ?_, ?_⟩
  · intro j hj
    rw [runGraph_add env 1 j, h1]
    simpa using exec_iter env ui none j steps [] hj
  · intro hne
    rw [runGraph_add env 1 steps.length, h1]
    simpa using exec_finish env ui none steps [] hne
  · intro he
    subst he
    rw [runGraph_add env 1 1, h1]
    simp [runGraph, graphStep, job_aware_executor_node, router_function, nodeOfRoute]

theorem C3_run_counts_witness :
    runGraph env2 2 (.planner, ⟨"u".data, [], [], none⟩) =
      .ok (.executer, ⟨"u".data, ["review results".data],
        (["list_all_jobs()".data, "review results".data].take 1).map (stepResult env2),
        none⟩) ∧
    runGraph env2 3 (.planner, ⟨"u".data, [], [], none⟩) =
      .ok (.synthesizer, ⟨"u".data, [],
        ["list_all_jobs()".data, "review results".data].map (stepResult env2), none⟩) := by
  constructor
  · exact (C3_run_counts env2 "u".data _ rfl).2.1 1 (by decide)
  · exact (C3_run_counts env2 "u".data _ rfl).2.2.1 (by decide)

/-- C5: when the planner returns zero steps, the executor call on the empty
plan is a no-op leaving the state unchanged, the synthesizer still runs
exactly once on zero intermediate results, and a final output is produced; no
error occurs. -/
theorem C5_empty_plan (env : Env) (ui : Str) (h : env.planner ui = .ok []) :
    (∀ st : PlannerState, st.plan = [] → job_aware_executor_node env st = st) ∧
    runGraph env 2 (.planner, ⟨ui, [], [], none⟩) =
      .ok (.synthesizer, ⟨ui, [], [], none⟩) ∧
    (∀ k, runGraph env (3 + k) (.planner, ⟨ui, [], [], none⟩) =
      .ok (.done, ⟨ui, [], [], some (env.llm (synthesisPrompt ui []))⟩)) := by
  refine ⟨?_, ?_, ?_⟩
  · intro st hp
    cases st
    simp_all [job_aware_executor_node]
  · simp [runGraph, graphStep, planner_node, h, job_aware_executor_node,
      router_function, nodeOfRoute]
  · intro k
    induction k with
    | zero =>
      simp [runGraph, graphStep, planner_node, h, job_aware_executor_node,
        router_function, nodeOfRoute, synthesizer_node]
    | succ k ih =>
      have h31 : 3 + (k + 1) = (3 + k) + 1 := by omega
      rw [h31, runGraph_add env (3 + k) 1, ih]
      simp [runGraph, graphStep]

theorem C5_empty_plan_witness :
    runGraph env1 2 (.planner, ⟨"u".data, [], [], none⟩) =
      .ok (.synthesizer, ⟨"u".data, [], [], none⟩) ∧
    runGraph env1 3 (.planner, ⟨"u".data, [], [], none⟩) =
      .ok (.done, ⟨"u".data, [], [], some ('M' :: synthesisPrompt "u".data [])⟩) := by
  constructor
  · exact (C5_empty_plan env1 "u".data rfl).2.1
  · exact (C5_empty_plan env1 "u".data rfl).2.2 0

/-- C8 (counterexample): the planner accepts a structured response of two
steps without any validation of the required 4-7 range: the run proceeds into
execution with a 2-step plan, so the plan does not always contain between 4
and 7 steps. -/
theorem C8_step_count_cex :
    runGraph env3 1 (.planner, ⟨"q".data, [], [], none⟩) =
      .ok (.executer, ⟨"q".data, ["a".data, "b".data], [], none⟩) ∧
    ¬ (4 ≤ (["a".data, "b".data] : List Str).length) := by
  exact ⟨rfl, by decide⟩

/-- C8 (amended): the planner requests 4-7 steps in its prompt but performs no
validation of the count: the plan is exactly the steps list the structured
model call returns, of any length; a response failing the structured schema is
not retried and aborts the run before any step executes. -/
theorem C8_schema_failure (env : Env) (ui : Str) :
    (∀ e, env.planner ui = .error e →
      ∀ fuel, runGraph env (fuel + 1) (.planner, ⟨ui, [], [], none⟩) = .error e) ∧
    (∀ steps, env.planner ui = .ok steps →
      runGraph env 1 (.planner, ⟨ui, [], [], none⟩) =
        .ok (.executer, ⟨ui, steps, [], none⟩)) := by
  constructor
  · intro e he fuel
    simp [runGraph, graphStep, planner_node, he]
  · intro steps hs
    simp [runGraph, graphStep, planner_node, hs]

theorem C8_schema_failure_witness :
    runGraph env4 5 (.planner, ⟨"u".data, [], [], none⟩) =
      .error "schema validation failed".data ∧
    runGraph env3 1 (.planner, ⟨"u".data, [], [], none⟩) =
      .ok (.executer, ⟨"u".data, ["a".data, "b".data], [], none⟩) := by
  constructor
  · exact (C8_schema_failure env4 "u".data).1 _ rfl 4
  · exact (C8_schema_failure env3 "u".data).2 _ rfl

/-! ### Lemmas about the job store -/

lemma lookup_cons_isSome (k : Str) (v : Entry) (s : Store) (f : Str) :
    (lookupStore ((k, v) :: s) f).isSome =
      (decide (k = f) || (lookupStore s f).isSome) := by
  by_cases h : k = f <;> simp [lookupStore, h]

lemma lookup_isSome_mem (s : Store) (f : Str)
    (h : (lookupStore s f).isSome = true) : f ∈ s.map Prod.fst := by
  induction s with
  | nil => simp [lookupStore] at h
  | cons e rest ih =>
    obtain ⟨k, v⟩ := e
    by_cases hk : k = f
    · subst hk
      exact List.mem_cons_self k (rest.map Prod.fst)
    · rw [lookup_cons_isSome, decide_eq_false hk, Bool.false_or] at h
      exact List.mem_cons_of_mem k (ih h)

lemma digitChar_inj : ∀ a, a < 10 → ∀ b, b < 10 → digitChar a = digitChar b → a = b := by
  decide

lemma map_digitChar_inj : ∀ l1 l2 : List Nat, (∀ x ∈ l1, x < 10) → (∀ x ∈ l2, x < 10) →
    l1.map digitChar = l2.map digitChar → l1 = l2 := by
  intro l1
  induction l1 with
  | nil =>
    intro l2 _ _ h
    cases l2 with
    | nil => rfl
    | cons b l2 => simp at h
  | cons a l1 ih =>
    intro l2 h1 h2 h
    cases l2 with
    | nil => simp at h
    | cons b l2 =>
      simp only [List.map_cons, List.cons.injEq] at h
      obtain ⟨hab, ht⟩ := h
      have hb := digitChar_inj a (h1 a (by simp)) b (h2 b (by simp)) hab
      subst hb
      rw [ih l2 (fun x hx => h1 x (by simp [hx])) (fun x hx => h2 x (by simp [hx])) ht]

lemma natToChars_inj : ∀ m n : Nat, natToChars m = natToChars n → m = n := by
  intro m n h
  unfold natToChars at h
  have hm : ∀ x ∈ (Nat.digits 10 m).reverse, x < 10 := fun x hx =>
    Nat.digits_lt_base (by norm_num) (List.mem_reverse.mp hx)
  have hn : ∀ x ∈ (Nat.digits 10 n).reverse, x < 10 := fun x hx =>
    Nat.digits_lt_base (by norm_num) (List.mem_reverse.mp hx)
  have hrev := map_digitChar_inj _ _ hm hn h
  have hd : Nat.digits 10 m = Nat.digits 10 n := by
    have := congrArg List.reverse hrev
    simpa using this
  calc m = Nat.ofDigits 10 (Nat.digits 10 m) := (Nat.ofDigits_digits 10 m).symm
    _ = Nat.ofDigits 10 (Nat.digits 10 n) := by rw [hd]
    _ = n := Nat.ofDigits_digits 10 n

lemma candName_inj (base : Str) : ∀ m n, candName base m = candName base n → m = n := by
  intro m n h
  unfold candName at h
  have h2 := List.append_cancel_left h
  simp only [List.cons.injEq] at h2
  exact natToChars_inj m n h2.2

/-- Among `s.length + 1` consecutive candidate stems at least one is not a key
of the store: the candidates are pairwise distinct, so they cannot all occur
among the `s.length` keys. -/
lemma exists_free_cand (s : Store) (base : Str) (n : Nat) :
    ∃ k, k < s.length + 1 ∧ (lookupStore s (candName base (n + k))).isSome = false := by
  by_contra hall
  push_neg at hall
  have hall2 : ∀ k, k < s.length + 1 →
      (lookupStore s (candName base (n + k))).isSome = true := by
    intro k hk
    cases h : (lookupStore s (candName base (n + k))).isSome
    · exact absurd h (hall k hk)
    · rfl
  have hinj : Function.Injective (fun k : Nat => candName base (n + k)) := by
    intro a b hab
    have := candName_inj base _ _ hab
    omega
  have hnodup : ((List.range (s.length + 1)).map
      (fun k => candName base (n + k))).Nodup :=
    List.Nodup.map hinj (List.nodup_range _)
  have hsub : ∀ x ∈ (List.range (s.length + 1)).map (fun k => candName base (n + k)),
      x ∈ s.map Prod.fst := by
    intro x hx
    simp only [List.mem_map, List.mem_range] at hx
    obtain ⟨k, hk, rfl⟩ := hx
    exact lookup_isSome_mem s _ (hall2 k hk)
  have h1 : ((List.range (s.length + 1)).map
      (fun k => candName base (n + k))).length = s.length + 1 := by simp
  have h2 := List.toFinset_card_of_nodup hnodup
  have h3 : ((List.range (s.length + 1)).map
      (fun k => candName base (n + k))).toFinset ⊆ (s.map Prod.fst).toFinset := by
    intro x hx
    rw [List.mem_toFinset] at hx ⊢
    exact hsub x hx
  have h4 := Finset.card_le_card h3
  have h5 := List.toFinset_card_le (s.map Prod.fst)
  simp only [List.length_map] at h5
  omega

lemma freshFrom_free (s : Store) (base : Str) :
    ∀ fuel n, (∃ k, k < fuel ∧ (lookupStore s (candName base (n + k))).isSome = false) →
      (lookupStore s (freshFrom s base fuel n)).isSome = false := by
  intro fuel
  induction fuel with
  | zero =>
    intro n h
    obtain ⟨k, hk, _⟩ := h
    omega
  | succ fuel ih =>
    intro n h
    cases hocc : (lookupStore s (candName base n)).isSome with
    | false => simp only [freshFrom, hocc, Bool.false_eq_true, if_false]
    | true =>
      simp only [freshFrom, hocc, if_true]
      apply ih
      obtain ⟨k, hk, hfree⟩ := h
      cases k with
      | zero =>
        rw [Nat.add_zero] at hfree
        rw [hocc] at hfree
        exact Bool.noConfusion hfree
      | succ k2 =>
        refine ⟨k2, by omega, ?_⟩
        have : n + 1 + k2 = n + (k2 + 1) := by omega
        rw [this]
        exact hfree

lemma freshFrom_shape (s : Store) (base : Str) :
    ∀ fuel n, ∃ m, n ≤ m ∧ freshFrom s base fuel n = candName base m := by
  intro fuel
  induction fuel with
  | zero => intro n; exact ⟨n, Nat.le_refl n, rfl⟩
  | succ fuel ih =>
    intro n
    cases h : (lookupStore s (candName base n)).isSome with
    | false => exact ⟨n, Nat.le_refl n, by simp [freshFrom, h]⟩
    | true =>
      obtain ⟨m, hm, he⟩ := ih (n + 1)
      exact ⟨m, by omega, by simp [freshFrom, h, he]⟩

/-- The stem chosen by `save_job_description` is not yet a file of the store:
the code only leaves the `while filepath.exists()` loop at a free name. -/
lemma save_stem_free (s : Store) (job : Job) :
    (lookupStore s (save_job_description s job).2).isSome = false := by
  unfold save_job_description freshStem
  cases h : (lookupStore s (baseFilename job)).isSome with
  | false => simp only [h, Bool.false_eq_true, if_false]
  | true =>
    simp only [h, if_true]
    exact freshFrom_free s (baseFilename job) (s.length + 1) 1
      (exists_free_cand s (baseFilename job) 1)

lemma save_fst (s : Store) (job : Job) :
    (save_job_description s job).1 =
      ((save_job_description s job).2, Entry.ok job) :: s := rfl

lemma save_lookup_self (s : Store) (job : Job) :
    lookupStore (save_job_description s job).1 (save_job_description s job).2 =
      some (Entry.ok job) := by
  rw [save_fst]
  simp [lookupStore]

/-- After a save, the base filename is always occupied (it either already was,
or the save just claimed it). -/
lemma base_occupied_after_save (s : Store) (job : Job) :
    (lookupStore (save_job_description s job).1 (baseFilename job)).isSome = true := by
  rw [save_fst, lookup_cons_isSome]
  cases h : (lookupStore s (baseFilename job)).isSome with
  | true => simp
  | false =>
    have hstem : (save_job_description s job).2 = baseFilename job := by
      unfold save_job_description freshStem
      simp [h]
    simp [hstem]

/-! ### Claims about the job store -/

/-- C6 (code bug demonstration): saving a record with populated `salary` and
`type` and retrieving it by the returned filename keeps the stored record
intact, but the retrieval summary prints `Not specified` for both salary and
employment type, because `get_job_by_filename` reads the keys `salary_range`
and `employment_type`, which the save path never writes; the sibling formatter
`format_job_data` (used by `load_job_by_title`) does preserve them. -/
theorem C6_roundtrip_drops_salary :
    lookupStore (save_job_description [] job0).1 (save_job_description [] job0).2 =
      some (Entry.ok job0) ∧
    job0.salary = some "100k".data ∧
    job0.type = some "Full-time".data ∧
    get_job_by_filename (save_job_description [] job0).1 (save_job_description [] job0).2 =
      .ok ("Job: Data Scientist\nCompany: Acme\nLocation: NYC\nDescription: Builds models\nRequirements: Python\nResponsibilities: Modeling\nSalary: Not specified\nEmployment Type: Not specified\nExperience Level: Not specified".data) ∧
    format_job_data job0 =
      "Job: Data Scientist\nCompany: Acme\nLocation: NYC\nDescription: Builds models\nRequirements: Python\nResponsibilities: Modeling\nSalary: 100k\nEmployment Type: Full-time\nExperience Level: Not specified".data := by
  refine ⟨save_lookup_self [] job0, rfl, rfl, ?_, ?_⟩
  · rfl
  · rfl

/-- C7: saving the same record twice never overwrites the first saved file:
the second save receives a distinct stem of the form `base_n` with `n >= 1`,
and the first stem still maps to the record afterwards. -/
theorem C7_second_save_fresh (s : Store) (job : Job) :
    (save_job_description (save_job_description s job).1 job).2 ≠
      (save_job_description s job).2 ∧
    lookupStore (save_job_description (save_job_description s job).1 job).1
      (save_job_description s job).2 = some (Entry.ok job) ∧
    ∃ n, 1 ≤ n ∧
      (save_job_description (save_job_description s job).1 job).2 =
        candName (baseFilename job) n := by
  have hfree := save_stem_free (save_job_description s job).1 job
  have hne : (save_job_description (save_job_description s job).1 job).2 ≠
      (save_job_description s job).2 := by
    intro he
    rw [he, save_lookup_self] at hfree
    simp at hfree
  refine ⟨hne, ?_, ?_⟩
  · rw [save_fst (save_job_description s job).1 job]
    simp only [lookupStore, if_neg hne]
    exact save_lookup_self s job
  · have hocc := base_occupied_after_save s job
    show ∃ n, 1 ≤ n ∧
      freshStem (save_job_description s job).1 (baseFilename job) =
        candName (baseFilename job) n
    unfold freshStem
    simp only [hocc, if_true]
    exact freshFrom_shape (save_job_description s job).1 (baseFilename job) _ 1

/-- C9 (counterexample): on a store containing a file that `json.load`
rejects, four of the five read operations raise instead of returning a
string; only `load_job_by_title` degrades to its not-found message. -/
theorem C9_malformed_store_cex :
    search_jobs_by_title [("x".data, Entry.bad)] "a".data = .error () ∧
    list_all_jobs [("x".data, Entry.bad)] = .error () ∧
    get_job_by_filename [("x".data, Entry.bad)] "x".data = .error () ∧
    search_jobs_by_criteria [("x".data, Entry.bad)] "a".data = .error () ∧
    load_job_by_title [("x".data, Entry.bad)] "a".data =
      "Job with title ".data ++ quoteSq "a".data ++ " not found in directory".data := by
  exact ⟨rfl, rfl, rfl, rfl, rfl⟩

lemma collectTitle_clean (t : Str) :
    ∀ s : Store, cleanStore s = true → ∃ ms, collectTitle t s = .ok ms := by
  intro s
  induction s with
  | nil => intro _; exact ⟨[], rfl⟩
  | cons e rest ih =>
    intro hc
    obtain ⟨stem, entry⟩ := e
    simp only [cleanStore, List.all_cons, Bool.and_eq_true] at hc
    cases entry with
    | bad => exact Bool.noConfusion hc.1
    | ok j =>
      obtain ⟨ms, hms⟩ := ih hc.2
      have he : collectTitle t ((stem, Entry.ok j) :: rest) =
          .ok (if isSubstring (lowerStr t) (lowerStr j.title) then
            entryLine j stem :: ms else ms) := by
        simp [collectTitle, hms]
      exact ⟨_, he⟩

lemma collectAll_clean :
    ∀ s : Store, cleanStore s = true → ∃ ms, collectAll s = .ok ms := by
  intro s
  induction s with
  | nil => intro _; exact ⟨[], rfl⟩
  | cons e rest ih =>
    intro hc
    obtain ⟨stem, entry⟩ := e
    simp only [cleanStore, List.all_cons, Bool.and_eq_true] at hc
    cases entry with
    | bad => exact Bool.noConfusion hc.1
    | ok j =>
      obtain ⟨ms, hms⟩ := ih hc.2
      have he : collectAll ((stem, Entry.ok j) :: rest) =
          .ok (entryLine j stem :: ms) := by
        simp [collectAll, hms]
      exact ⟨_, he⟩

lemma collectCriteria_clean (c : Str) :
    ∀ s : Store, cleanStore s = true → ∃ ms, collectCriteria c s = .ok ms := by
  intro s
  induction s with
  | nil => intro _; exact ⟨[], rfl⟩
  | cons e rest ih =>
    intro hc
    obtain ⟨stem, entry⟩ := e
    simp only [cleanStore, List.all_cons, Bool.and_eq_true] at hc
    cases entry with
    | bad => exact Bool.noConfusion hc.1
    | ok j =>
      obtain ⟨ms, hms⟩ := ih hc.2
      have he : collectCriteria c ((stem, Entry.ok j) :: rest) =
          .ok (if matchesCriteria c j then entryLine j stem :: ms else ms) := by
        simp [collectCriteria, hms]
      exact ⟨_, he⟩

lemma lookup_clean_not_bad (f : Str) :
    ∀ s : Store, cleanStore s = true → lookupStore s f ≠ some Entry.bad := by
  intro s
  induction s with
  | nil => intro _; simp [lookupStore]
  | cons e rest ih =>
    intro hc
    obtain ⟨k, v⟩ := e
    simp only [cleanStore, List.all_cons, Bool.and_eq_true] at hc
    by_cases hk : k = f
    · cases v with
      | bad => exact Bool.noConfusion hc.1
      | ok j => simp [lookupStore, hk]
    · simp only [lookupStore, if_neg hk]
      exact ih hc.2

/-- C9 (amended): `load_job_by_title` never raises on any store; it behaves as
if malformed or unreadable files were absent.  The other four read operations
return a string on every store whose files all parse, but propagate an
exception on a store containing a malformed file (see the counterexample). -/
theorem C9_reads_return_strings :
    (∀ (s : Store) (t : Str),
      load_job_by_title s t =
        load_job_by_title (s.filter (fun e => entryOk e.2)) t) ∧
    (∀ (s : Store) (t : Str), cleanStore s = true →
      isOkE (search_jobs_by_title s t) = true) ∧
    (∀ s : Store, cleanStore s = true → isOkE (list_all_jobs s) = true) ∧
    (∀ (s : Store) (f : Str), cleanStore s = true →
      isOkE (get_job_by_filename s f) = true) ∧
    (∀ (s : Store) (c : Str), cleanStore s = true →
      isOkE (search_jobs_by_criteria s c) = true) := by
  refine ⟨?_, ?_, ?_, ?_, ?_⟩
  · intro s t
    unfold load_job_by_title
    generalize sanitize_filename (lowerStr t) = norm
    induction s with
    | nil => rfl
    | cons e rest ih =>
      obtain ⟨stem, entry⟩ := e
      cases entry with
      | bad => simpa [loadScan, entryOk] using ih
      | ok j =>
        by_cases hm : titleMatches t norm stem j <;>
          simp [loadScan, entryOk, hm, ih]
  · intro s t hc
    obtain ⟨ms, hms⟩ := collectTitle_clean t s hc
    simp only [search_jobs_by_title, hms]
    by_cases h : ms = [] <;> simp [h, isOkE]
  · intro s hc
    by_cases hs : s = []
    · simp [hs, list_all_jobs, isOkE]
    · obtain ⟨ms, hms⟩ := collectAll_clean s hc
      simp [list_all_jobs, hs, hms, isOkE]
  · intro s f hc
    cases hl : lookupStore s f with
    | none => simp [get_job_by_filename, hl, isOkE]
    | some entry =>
      cases entry with
      | ok j => simp [get_job_by_filename, hl, isOkE]
      | bad => exact absurd hl (lookup_clean_not_bad f s hc)
  · intro s c hc
    obtain ⟨ms, hms⟩ := collectCriteria_clean c s hc
    simp only [search_jobs_by_criteria, hms]
    by_cases h : ms = [] <;> simp [h, isOkE]

theorem C9_reads_return_strings_witness :
    load_job_by_title [("z".data, Entry.bad), ("a".data, Entry.ok job0)]
        "Data Scientist".data =
      load_job_by_title
        ([("z".data, Entry.bad), ("a".data, Entry.ok job0)].filter
          (fun e => entryOk e.2))
        "Data Scientist".data ∧
    isOkE (search_jobs_by_title [("a".data, Entry.ok job0)] "data".data) = true ∧
    isOkE (list_all_jobs [("a".data, Entry.ok job0)]) = true ∧
    isOkE (get_job_by_filename [("a".data, Entry.ok job0)] "a".data) = true ∧
    isOkE (search_jobs_by_criteria [("a".data, Entry.ok job0)] "python".data) = true := by
  refine ⟨?_, ?_, ?_, ?_, ?_⟩
  · exact C9_reads_return_strings.1 _ _
  · exact C9_reads_return_strings.2.1 _ _ (by decide)
  · exact C9_reads_return_strings.2.2.1 _ (by decide)
  · exact C9_reads_return_strings.2.2.2.1 _ _ (by decide)
  · exact C9_reads_return_strings.2.2.2.2 _ _ (by decide)

end JobPlanner
